import Mathlib

/-! ArduinoJson: comparisons between a variant and a native value

A shallow embedding of `src/ArduinoJson/Operators/VariantComparisons.hpp`:
the three `Comparer` visitors, the `sign` helper, the private `compare`
and the relational operators of `VariantComparisons`, in both operand orders.

Machine integers are mathematical integers (`Int`) reduced explicitly
modulo `2 ^ w`; the `int8_t` result field is an `Int` as well.
-/

namespace ArduinoJson

/-! ## Native integer types -/

/-- A native integer type `T` with `is_integral<T>`: its signedness and its width in bits. -/
structure IntType where
  isSigned : Bool
  bits : Nat
deriving DecidableEq, Repr

/-- The power `2 ^ k` as an integer. -/
def pow2 (k : Nat) : Int := ((2 ^ k : Nat) : Int)

namespace IntType

/-- Smallest value of the type. -/
def minValue (t : IntType) : Int :=
  if t.isSigned then -pow2 (t.bits - 1) else 0

/-- Largest value of the type. -/
def maxValue (t : IntType) : Int :=
  if t.isSigned then pow2 (t.bits - 1) - 1 else pow2 t.bits - 1

/-- The integer `x` is a value of the type. -/
def inRange (t : IntType) (x : Int) : Prop :=
  t.minValue ≤ x ∧ x ≤ t.maxValue

instance (t : IntType) (x : Int) : Decidable (t.inRange x) := by
  unfold inRange; exact inferInstance

/-- Reduction of an integer into the type: `x` modulo `2 ^ bits`, read as a
signed value when the type is signed. This is `static_cast<T>(x)`, and the
value of an arithmetic result computed in `T`. -/
def cast (t : IntType) (x : Int) : Int :=
  if t.isSigned then (x + pow2 (t.bits - 1)) % pow2 t.bits - pow2 (t.bits - 1)
  else x % pow2 t.bits

/-- Integer promotion on a target whose `int` has `intBits` bits: a type
narrower than `int` is promoted to `int`, any other type is kept. Unary and
binary `-` compute in the promoted type. -/
def promote (intBits : Nat) (t : IntType) : IntType :=
  if t.bits < intBits then ⟨true, intBits⟩ else t

/-- Unary minus on an operand of type `t`. -/
def neg (intBits : Nat) (t : IntType) (a : Int) : Int :=
  (promote intBits t).cast (-a)

/-- Binary minus on two operands of type `promote t`. -/
def sub (intBits : Nat) (t : IntType) (a b : Int) : Int :=
  (promote intBits t).cast (a - b)

end IntType

/-- The type `int8_t`. -/
def int8 : IntType := ⟨true, 8⟩

/-! ## Floating point types -/

/-- The operations of the floating-point type `Float` that the comparers use.
The source leaves them to the target; they are kept abstract here. -/
class FloatType (F : Type) where
  /-- The literal `0` converted to the type. -/
  zero : F
  /-- Binary minus. -/
  sub : F → F → F
  /-- Unary minus. -/
  neg : F → F
  /-- The comparison `a < b`; `a > b` is `b < a`. -/
  lt : F → F → Bool
  /-- Conversion of a `UInt`: `static_cast<T>(rhs)`. -/
  ofUInt : Nat → F
  /-- Conversion of an integer operand in mixed arithmetic. -/
  ofInt : Int → F

/-- Exact arithmetic on the rationals, as a `FloatType`: an idealisation
without NaN and without rounding. It is the carrier of the concrete inputs on
which no floating-point operation is evaluated. -/
instance : FloatType ℚ where
  zero := 0
  sub a b := a - b
  neg a := -a
  lt a b := decide (a < b)
  ofUInt u := (u : ℚ)
  ofInt n := (n : ℚ)

/-- A binary floating-point format: `prec` significand bits, the unit
`2 ^ (-scale)` of the subnormal numbers, and the bound `2 ^ top`, in that
unit, below which a magnitude is finite. -/
structure FloatFormat where
  prec : Nat
  scale : Nat
  top : Nat
deriving DecidableEq, Repr

/-- The format binary64 of `double`: 53 significand bits, subnormal unit
`2 ^ (-1074)`, finite magnitudes below `2 ^ 1024`. -/
def binary64 : FloatFormat := ⟨53, 1074, 2098⟩

/-- The rational number that `k` units of the format stand for. -/
def FloatFormat.value (fmt : FloatFormat) (k : Int) : ℚ := (k : ℚ) / 2 ^ fmt.scale

/-- A value of an IEEE 754 binary floating-point type: NaN, an infinity with
its sign, or a finite number `k * 2 ^ (-scale)` given by the integer `k`. The
two zeros are one value; `<` does not tell them apart. -/
inductive Flt (fmt : FloatFormat) where
  | nan
  | inf (negative : Bool)
  | fin (k : Int)
deriving DecidableEq, Repr

namespace Flt

/-- Rounding to nearest, ties to even, of the exact result `d` units. A
magnitude below `2 ^ prec` units is exact. A larger one keeps its `prec`
leading bits `q` and drops `k` bits `r`, rounding `q` up when `r` is above
half, or is half and `q` is odd; a rounded magnitude of `2 ^ top` or more
overflows to the infinity of that sign. -/
def round (fmt : FloatFormat) (d : Int) : Flt fmt :=
  let mag := d.natAbs
  if mag < 2 ^ fmt.prec then .fin d
  else
    let k := mag.log2 + 1 - fmt.prec
    let q := mag / 2 ^ k
    let r := mag % 2 ^ k
    let q1 := if 2 * r < 2 ^ k then q else if 2 ^ k < 2 * r then q + 1
      else if q % 2 = 0 then q else q + 1
    let m := q1 * 2 ^ k
    if m < 2 ^ fmt.top then .fin (if d < 0 then -(m : Int) else (m : Int))
    else .inf (decide (d < 0))

/-- The value is a number of the format: NaN, an infinity, or a finite number
that rounding keeps. -/
def valid {fmt : FloatFormat} : Flt fmt → Prop
  | .fin k => round fmt k = .fin k
  | _ => True

instance {fmt : FloatFormat} (x : Flt fmt) : Decidable x.valid := by
  cases x <;> unfold valid <;> exact inferInstance

/-- Binary minus: NaN if an operand is NaN or both are the same infinity, an
infinity if one operand is infinite, the rounded exact difference otherwise. -/
def sub {fmt : FloatFormat} : Flt fmt → Flt fmt → Flt fmt
  | .nan, _ => .nan
  | _, .nan => .nan
  | .inf a, .inf b => if a = b then .nan else .inf a
  | .inf a, .fin _ => .inf a
  | .fin _, .inf b => .inf (!b)
  | .fin a, .fin b => round fmt (a - b)

/-- Unary minus. -/
def neg {fmt : FloatFormat} : Flt fmt → Flt fmt
  | .nan => .nan
  | .inf a => .inf (!a)
  | .fin a => .fin (-a)

/-- The comparison `<`: false if an operand is NaN. -/
def lt {fmt : FloatFormat} : Flt fmt → Flt fmt → Bool
  | .nan, _ => false
  | _, .nan => false
  | .inf a, .inf b => a && !b
  | .inf a, .fin _ => a
  | .fin _, .inf b => !b
  | .fin a, .fin b => decide (a < b)

end Flt

/-- IEEE 754 arithmetic in a binary format, as a `FloatType`: the arithmetic
of `Float` on the target. An integer is converted by rounding it to the
format. -/
instance (fmt : FloatFormat) : FloatType (Flt fmt) where
  zero := .fin 0
  sub := Flt.sub
  neg := Flt.neg
  lt := Flt.lt
  ofUInt u := Flt.round fmt ((u : Int) * pow2 fmt.scale)
  ofInt n := Flt.round fmt (n * pow2 fmt.scale)

/-! ## The variant and its visitors -/

/-- A C string: its bytes, without the terminator. -/
abbrev CStr := List UInt8

/-- The nine kinds of a variant. -/
inductive Kind where
  | null | boolean | string | rawJson | negativeInteger | positiveInteger
  | float | array | object
deriving DecidableEq, Repr

/-- Modelled from the spec: the dynamic value of `Variant/VariantRef.hpp`, a
tagged union over the nine kinds, each with that kind's payload (none for
null, array and object). -/
inductive VariantData (F : Type) where
  | null
  | boolean (b : Bool)
  | string (s : CStr)
  | rawJson (data : CStr) (n : Nat)
  | negativeInteger (u : Nat)
  | positiveInteger (u : Nat)
  | float (f : F)
  | array
  | object

/-- The kind of a variant. -/
def VariantData.kind {F : Type} : VariantData F → Kind
  | .null => .null
  | .boolean _ => .boolean
  | .string _ => .string
  | .rawJson _ _ => .rawJson
  | .negativeInteger _ => .negativeInteger
  | .positiveInteger _ => .positiveInteger
  | .float _ => .float
  | .array => .array
  | .object => .object

/-- The visitor contract: one method per kind, acting on the visitor state `C`. -/
structure Visitor (F : Type) (C : Type) where
  visitArray : C → C
  visitObject : C → C
  visitFloat : C → F → C
  visitString : C → CStr → C
  visitRawJson : C → CStr → Nat → C
  visitNegativeInteger : C → Nat → C
  visitPositiveInteger : C → Nat → C
  visitBoolean : C → Bool → C
  visitNull : C → C

/-- Modelled from the spec: `TVariant::accept` of `Variant/VariantRef.hpp`,
which invokes exactly one visit method, the one of the current kind, with
that kind's payload. -/
def VariantData.accept {F C : Type} (v : VariantData F) (vis : Visitor F C) (c : C) : C :=
  match v with
  | .null => vis.visitNull c
  | .boolean b => vis.visitBoolean c b
  | .string s => vis.visitString c s
  | .rawJson d n => vis.visitRawJson c d n
  | .negativeInteger u => vis.visitNegativeInteger c u
  | .positiveInteger u => vis.visitPositiveInteger c u
  | .float f => vis.visitFloat c f
  | .array => vis.visitArray c
  | .object => vis.visitObject c

/-! ## String adapters -/

/-- The string adapter `adaptString(lhs)` of a string-like type `T`
(`IsString<T>`): only the two queries the comparer makes. -/
structure StringAdapter (T : Type) where
  equals : T → CStr → Bool
  isNull : T → Bool

/-- Modelled from the spec: the adapter of `const char*` (`adaptString` is not
in this file). The absent string is the null pointer; `equals` compares byte
for byte. -/
def constCharAdapter : StringAdapter (Option CStr) where
  equals lhs rhs := match lhs with
    | none => false
    | some s => decide (s = rhs)
  isNull lhs := lhs.isNone

/-! ## The comparers -/

/-- The struct `Comparer<T>` for a string-like `T`: operand and boolean result. -/
structure StrComparer (T : Type) where
  lhs : T
  result : Bool

/-- The struct `Comparer<T>` for a simple value: operand and `int8_t` result. -/
structure Comparer (T : Type) where
  lhs : T
  result : Int

/-- The visit methods of `Comparer<T, enable_if<IsString<T>>>`. -/
def StrComparer.visitor {F T : Type} (A : StringAdapter T) : Visitor F (StrComparer T) where
  visitArray c := c
  visitObject c := c
  visitFloat c _ := c
  visitString c rhs := { c with result := A.equals c.lhs rhs }
  visitRawJson c _ _ := c
  visitNegativeInteger c _ := c
  visitPositiveInteger c _ := c
  visitBoolean c _ := c
  visitNull c := { c with result := A.isNull c.lhs }

/-- The helper `sign` at an integer type. -/
def sign (value : Int) : Int :=
  if value < 0 then -1 else if value > 0 then 1 else 0

/-- The helper `sign` at a floating-point type. -/
def signF {F : Type} [FloatType F] (value : F) : Int :=
  if FloatType.lt value FloatType.zero then -1
  else if FloatType.lt FloatType.zero value then 1 else 0

/-- The visit methods of the numeric `Comparer<T>` at an integer type `t`, on a
target whose `int` has `intBits` bits. In `visitFloat` the operand is
converted to `Float`; in `visitPositiveInteger` both sides of `<` and `>`
have type `T`, so they are compared by value. -/
def Comparer.intVisitor {F : Type} [FloatType F] (intBits : Nat) (t : IntType) :
    Visitor F (Comparer Int) where
  visitArray c := c
  visitObject c := c
  visitFloat c rhs := { c with result := signF (FloatType.sub rhs (FloatType.ofInt c.lhs)) }
  visitString c _ := c
  visitRawJson c _ _ := c
  visitNegativeInteger c rhs :=
    { c with result := sign (t.sub intBits (t.neg intBits (t.cast rhs)) c.lhs) }
  visitPositiveInteger c rhs :=
    { c with result := if t.cast rhs < c.lhs then -1 else if t.cast rhs > c.lhs then 1 else 0 }
  visitBoolean c _ := c
  visitNull c := c

/-- The visit methods of the numeric `Comparer<T>` at the floating-point type. -/
def Comparer.floatVisitor {F : Type} [FloatType F] : Visitor F (Comparer F) where
  visitArray c := c
  visitObject c := c
  visitFloat c rhs := { c with result := signF (FloatType.sub rhs c.lhs) }
  visitString c _ := c
  visitRawJson c _ _ := c
  visitNegativeInteger c rhs :=
    { c with result := signF (FloatType.sub (FloatType.neg (FloatType.ofUInt rhs)) c.lhs) }
  visitPositiveInteger c rhs :=
    { c with result :=
        if FloatType.lt (FloatType.ofUInt rhs) c.lhs then -1
        else if FloatType.lt c.lhs (FloatType.ofUInt rhs) then 1 else 0 }
  visitBoolean c _ := c
  visitNull c := c

/-- The visit methods of `Comparer<bool, void>`: `rhs - lhs` is computed on
the 0/1 values in `int` and cast to `int8_t`. -/
def Comparer.boolVisitor {F : Type} : Visitor F (Comparer Bool) where
  visitArray c := c
  visitObject c := c
  visitFloat c _ := c
  visitString c _ := c
  visitRawJson c _ _ := c
  visitNegativeInteger c _ := c
  visitPositiveInteger c _ := c
  visitBoolean c rhs :=
    { c with result := int8.cast ((if rhs then 1 else 0) - (if c.lhs then 1 else 0)) }
  visitNull c := c

/-! ## The facade -/

/-- A native operand with `is_simple_value<T>`: an integer of type `t`, a
floating-point number, or a boolean. -/
inductive SimpleValue (F : Type) where
  | integer (t : IntType) (n : Int)
  | floating (x : F)
  | boolean (b : Bool)

namespace VariantComparisons

/-- The private `compare`: build the comparer of the operand type with result
`1` (see the constructors), let the variant accept it, return the result. -/
def compare {F : Type} [FloatType F] (intBits : Nat) (lhs : VariantData F)
    (rhs : SimpleValue F) : Int :=
  match rhs with
  | .integer t n => (lhs.accept (Comparer.intVisitor intBits t) ⟨n, 1⟩).result
  | .floating x => (lhs.accept Comparer.floatVisitor ⟨x, 1⟩).result
  | .boolean b => (lhs.accept Comparer.boolVisitor ⟨b, 1⟩).result

/-- String `==` variant (`const char* == TVariant`, `std::string == TVariant`). -/
def operator_eq_SV {F T : Type} (A : StringAdapter T) (lhs : T) (rhs : VariantData F) : Bool :=
  (rhs.accept (StrComparer.visitor A) ⟨lhs, false⟩).result

/-- Variant `==` string (`TVariant == const char*`, `TVariant == std::string`). -/
def operator_eq_VS {F T : Type} (A : StringAdapter T) (lhs : VariantData F) (rhs : T) : Bool :=
  (lhs.accept (StrComparer.visitor A) ⟨rhs, false⟩).result

/-- String `!=` variant. -/
def operator_ne_SV {F T : Type} (A : StringAdapter T) (lhs : T) (rhs : VariantData F) : Bool :=
  !operator_eq_SV A lhs rhs

/-- Variant `!=` string. -/
def operator_ne_VS {F T : Type} (A : StringAdapter T) (lhs : VariantData F) (rhs : T) : Bool :=
  !operator_eq_VS A lhs rhs

variable {F : Type} [FloatType F] (intBits : Nat)

/-- Simple value `==` variant. -/
def operator_eq_TV (lhs : SimpleValue F) (rhs : VariantData F) : Bool :=
  decide (compare intBits rhs lhs = 0)

/-- Variant `==` simple value. -/
def operator_eq_VT (lhs : VariantData F) (rhs : SimpleValue F) : Bool :=
  decide (compare intBits lhs rhs = 0)

/-- Simple value `!=` variant. -/
def operator_ne_TV (lhs : SimpleValue F) (rhs : VariantData F) : Bool :=
  decide (compare intBits rhs lhs ≠ 0)

/-- Variant `!=` simple value. -/
def operator_ne_VT (lhs : VariantData F) (rhs : SimpleValue F) : Bool :=
  decide (compare intBits lhs rhs ≠ 0)

/-- Simple value `<` variant. -/
def operator_lt_TV (lhs : SimpleValue F) (rhs : VariantData F) : Bool :=
  decide (compare intBits rhs lhs > 0)

/-- Variant `<` simple value. -/
def operator_lt_VT (lhs : VariantData F) (rhs : SimpleValue F) : Bool :=
  decide (compare intBits lhs rhs < 0)

/-- Simple value `<=` variant. -/
def operator_le_TV (lhs : SimpleValue F) (rhs : VariantData F) : Bool :=
  decide (compare intBits rhs lhs ≥ 0)

/-- Variant `<=` simple value. -/
def operator_le_VT (lhs : VariantData F) (rhs : SimpleValue F) : Bool :=
  decide (compare intBits lhs rhs ≤ 0)

/-- Simple value `>` variant. -/
def operator_gt_TV (lhs : SimpleValue F) (rhs : VariantData F) : Bool :=
  decide (compare intBits rhs lhs < 0)

/-- Variant `>` simple value. -/
def operator_gt_VT (lhs : VariantData F) (rhs : SimpleValue F) : Bool :=
  decide (compare intBits lhs rhs > 0)

/-- Simple value `>=` variant. -/
def operator_ge_TV (lhs : SimpleValue F) (rhs : VariantData F) : Bool :=
  decide (compare intBits rhs lhs ≤ 0)

/-- Variant `>=` simple value. -/
def operator_ge_VT (lhs : VariantData F) (rhs : SimpleValue F) : Bool :=
  decide (compare intBits lhs rhs ≥ 0)

end VariantComparisons

/-! ## Vocabulary of the statements -/

/-- The type `int32_t`. -/
def int32 : IntType := ⟨true, 32⟩

/-- The kinds that the comparer of a simple value acts on (its home family):
the three number kinds for an integer or floating-point operand, the boolean
kind for a boolean operand. On every other kind the visit method is empty. -/
def SimpleValue.home {F : Type} : SimpleValue F → List Kind
  | .integer _ _ => [.negativeInteger, .positiveInteger, .float]
  | .floating _ => [.negativeInteger, .positiveInteger, .float]
  | .boolean _ => [.boolean]

/-- The type `int64_t`. -/
def int64 : IntType := ⟨true, 64⟩

/-- The type `uint8_t`. -/
def uint8 : IntType := ⟨false, 8⟩

/-- The type `uint32_t`. -/
def uint32 : IntType := ⟨false, 32⟩

/-- The constructor `Comparer(T value) : lhs(value), result(1)` of the numeric
and boolean comparers: the state before any visit. -/
def Comparer.init {T : Type} (value : T) : Comparer T := ⟨value, 1⟩

/-! ## Arithmetic lemmas -/

open VariantComparisons

/-- Powers of two are positive. -/
theorem pow2_pos (k : Nat) : 0 < pow2 k := by
  unfold pow2
  exact_mod_cast Nat.pos_pow_of_pos k (by decide)

/-- The next power of two is the double. -/
theorem pow2_succ (k : Nat) : pow2 (k + 1) = 2 * pow2 k := by
  unfold pow2
  rw [Nat.pow_succ]
  push_cast
  ring

/-- A power of two with positive exponent is twice the previous one. -/
theorem pow2_bits (k : Nat) (h : 0 < k) : pow2 k = 2 * pow2 (k - 1) := by
  obtain ⟨j, rfl⟩ : ∃ j, k = j + 1 := ⟨k - 1, by omega⟩
  simpa using pow2_succ j

/-- Powers of two grow with the exponent. -/
theorem pow2_mono {j k : Nat} (h : j ≤ k) : pow2 j ≤ pow2 k := by
  unfold pow2
  exact_mod_cast Nat.pow_le_pow_right (by decide) h

/-- Reduction modulo `m` of a value in `[0, m)`, `[-m, 0)` or `[m, 2m)`. -/
theorem emod_window (x m : Int) :
    (0 ≤ x → x < m → x % m = x) ∧
    (-m ≤ x → x < 0 → x % m = x + m) ∧
    (m ≤ x → x < 2 * m → x % m = x - m) := by
  refine ⟨fun h0 h1 => Int.emod_eq_of_lt h0 h1, fun h0 h1 => ?_, fun h0 h1 => ?_⟩
  · have h : (x + m) % m = x + m := Int.emod_eq_of_lt (by omega) (by omega)
    rwa [Int.add_emod_self] at h
  · have h : (x - m) % m = x - m := Int.emod_eq_of_lt (by omega) (by omega)
    have h2 : (x - m + m) % m = (x - m) % m := Int.add_emod_self
    rw [sub_add_cancel] at h2
    omega

/-- The three windows of the signed reduction. -/
theorem IntType.cast_signed (t : IntType) (hs : t.isSigned = true) (hb : 0 < t.bits) (x : Int) :
    (-pow2 (t.bits - 1) ≤ x → x < pow2 (t.bits - 1) → t.cast x = x) ∧
    (-pow2 t.bits - pow2 (t.bits - 1) ≤ x → x < -pow2 (t.bits - 1) →
      t.cast x = x + pow2 t.bits) ∧
    (pow2 (t.bits - 1) ≤ x → x < pow2 t.bits + pow2 (t.bits - 1) →
      t.cast x = x - pow2 t.bits) := by
  have hM := pow2_bits t.bits hb
  have hH := pow2_pos (t.bits - 1)
  obtain ⟨w0, w1, w2⟩ := emod_window (x + pow2 (t.bits - 1)) (pow2 t.bits)
  simp only [IntType.cast, hs, if_true]
  refine ⟨fun h0 h1 => ?_, fun h0 h1 => ?_, fun h0 h1 => ?_⟩
  · rw [w0 (by omega) (by omega)]; omega
  · rw [w1 (by omega) (by omega)]; omega
  · rw [w2 (by omega) (by omega)]; omega

/-- The two windows of the unsigned reduction that the comparers meet. -/
theorem IntType.cast_unsigned (t : IntType) (hs : t.isSigned = false) (x : Int) :
    (0 ≤ x → x < pow2 t.bits → t.cast x = x) ∧
    (-pow2 t.bits ≤ x → x < 0 → t.cast x = x + pow2 t.bits) := by
  obtain ⟨w0, w1, _⟩ := emod_window x (pow2 t.bits)
  simp only [IntType.cast, hs]
  exact ⟨w0, w1⟩

/-- A value of the type is unchanged by the conversion to the type. -/
theorem IntType.cast_of_inRange (t : IntType) (hb : 0 < t.bits) (x : Int) (hx : t.inRange x) :
    t.cast x = x := by
  unfold IntType.inRange IntType.minValue IntType.maxValue at hx
  cases hs : t.isSigned
  · simp only [hs] at hx
    exact (IntType.cast_unsigned t hs x).1 (by simpa using hx.1) (by have := hx.2; simp at this; omega)
  · simp only [hs, if_true] at hx
    exact (IntType.cast_signed t hs hb x).1 hx.1 (by omega)

/-- Promotion of a signed type gives a signed type that is at least as wide. -/
theorem promote_signed (intBits : Nat) (t : IntType) (hs : t.isSigned = true) :
    (t.promote intBits).isSigned = true ∧ t.bits ≤ (t.promote intBits).bits := by
  unfold IntType.promote
  split_ifs with h
  · exact ⟨rfl, by simpa using Nat.le_of_lt h⟩
  · exact ⟨hs, Nat.le_refl _⟩

/-- The helper `sign` returns `0` exactly at `0`. -/
theorem sign_eq_zero (x : Int) : sign x = 0 ↔ x = 0 := by
  unfold sign
  split_ifs <;> first | omega | (simp; omega)

/-! ## The result of `compare` -/

variable {F : Type} [FloatType F]

/-- Outside the home family the result keeps its initial value `1`. -/
theorem compare_of_not_home (intBits : Nat) (v : VariantData F) (n : SimpleValue F)
    (h : v.kind ∉ n.home) : compare intBits v n = 1 := by
  cases n <;> cases v <;> first | rfl | (exfalso; revert h; simp [SimpleValue.home, VariantData.kind])

/-- The result on a positive integer and an integer operand. -/
theorem compare_positiveInteger (intBits : Nat) (t : IntType) (u : Nat) (n : Int) :
    compare intBits (.positiveInteger u : VariantData F) (.integer t n)
      = if t.cast u < n then -1 else if t.cast u > n then 1 else 0 := rfl

/-- The result on a negative integer and an integer operand. -/
theorem compare_negativeInteger (intBits : Nat) (t : IntType) (u : Nat) (n : Int) :
    compare intBits (.negativeInteger u : VariantData F) (.integer t n)
      = sign (t.sub intBits (t.neg intBits (t.cast u)) n) := rfl

/-- The result on two booleans. -/
theorem compare_boolean (intBits : Nat) (b n : Bool) :
    compare intBits (.boolean b : VariantData F) (.boolean n)
      = (if b then 1 else 0) - (if n then 1 else 0) := by
  cases b <;> cases n <;> rfl

/-- For a signed type `t`, a magnitude `m` in `[1, max]` and an operand `n` of
type `t`, the difference computed by `visitNegativeInteger` is `-m - n`
when that is at least the minimum of the promoted type, and `-m - n` plus
`2 ^ bits` of the promoted type otherwise. -/
theorem negativeInteger_diff (intBits : Nat) (t : IntType) (m : Nat) (n : Int)
    (hs : t.isSigned = true) (hb : 0 < t.bits) (hm1 : 1 ≤ m) (hm : (m : Int) ≤ t.maxValue)
    (hn : t.inRange n) :
    t.sub intBits (t.neg intBits (t.cast m)) n =
      if -pow2 ((t.promote intBits).bits - 1) ≤ -(m : Int) - n then -(m : Int) - n
      else -(m : Int) - n + pow2 (t.promote intBits).bits := by
  obtain ⟨hPs, hPb⟩ := promote_signed intBits t hs
  have hPb0 : 0 < (t.promote intBits).bits := by omega
  have hmono : pow2 (t.bits - 1) ≤ pow2 ((t.promote intBits).bits - 1) :=
    pow2_mono (by omega)
  have hM := pow2_bits _ hPb0
  have hH := pow2_pos (t.bits - 1)
  simp only [IntType.inRange, IntType.minValue, IntType.maxValue, hs, if_true] at hn hm
  have hcm : t.cast m = m :=
    (IntType.cast_signed t hs hb m).1 (by omega) (by omega)
  have hneg : t.neg intBits (t.cast m) = -(m : Int) := by
    rw [hcm]
    exact (IntType.cast_signed _ hPs hPb0 _).1 (by omega) (by omega)
  rw [hneg]
  unfold IntType.sub
  obtain ⟨w0, w1, _⟩ := IntType.cast_signed _ hPs hPb0 (-(m : Int) - n)
  split_ifs with h
  · exact w0 h (by omega)
  · exact w1 (by omega) (by omega)

/-- The result on a negative integer of magnitude `m` in `[1, max(t)]` and an
operand `n` of the signed type `t` is `0` exactly when `n` is `-m`. -/
theorem compare_negativeInteger_eq_zero (intBits : Nat) (t : IntType) (m : Nat) (n : Int)
    (hs : t.isSigned = true) (hb : 0 < t.bits) (hm1 : 1 ≤ m) (hm : (m : Int) ≤ t.maxValue)
    (hn : t.inRange n) :
    compare intBits (.negativeInteger m : VariantData F) (.integer t n) = 0 ↔ n = -(m : Int) := by
  rw [compare_negativeInteger, sign_eq_zero, negativeInteger_diff intBits t m n hs hb hm1 hm hn]
  obtain ⟨_, hPb⟩ := promote_signed intBits t hs
  have hM := pow2_bits (t.promote intBits).bits (by omega)
  have hmono : pow2 (t.bits - 1) ≤ pow2 ((t.promote intBits).bits - 1) :=
    pow2_mono (by omega)
  simp only [IntType.inRange, IntType.minValue, IntType.maxValue, hs, if_true] at hn hm
  split_ifs <;> omega

/-- The conversion into a type leaves the residue modulo `2 ^ bits` unchanged. -/
theorem IntType.cast_modEq (t : IntType) (x : Int) : t.cast x ≡ x [ZMOD pow2 t.bits] := by
  unfold IntType.cast
  split_ifs
  · have h := (Int.mod_modEq (x + pow2 (t.bits - 1)) (pow2 t.bits)).sub_right (pow2 (t.bits - 1))
    simpa using h
  · exact Int.mod_modEq x (pow2 t.bits)

/-- The conversion into a type gives a value of the type. -/
theorem IntType.cast_inRange (t : IntType) (hb : 0 < t.bits) (x : Int) : t.inRange (t.cast x) := by
  have hM := pow2_bits t.bits hb
  have hp := pow2_pos t.bits
  unfold IntType.cast IntType.inRange IntType.minValue IntType.maxValue
  cases hs : t.isSigned
  · have h0 := Int.emod_nonneg x hp.ne.symm
    have h1 := Int.emod_lt_of_pos x hp
    simp only [Bool.false_eq_true, if_false]
    omega
  · have h0 := Int.emod_nonneg (x + pow2 (t.bits - 1)) hp.ne.symm
    have h1 := Int.emod_lt_of_pos (x + pow2 (t.bits - 1)) hp
    simp only [if_true]
    omega

/-- Two values of a type with the same residue modulo `2 ^ bits` are equal. -/
theorem IntType.eq_of_modEq (t : IntType) (hb : 0 < t.bits) (a b : Int) (ha : t.inRange a)
    (hb2 : t.inRange b) (h : a ≡ b [ZMOD pow2 t.bits]) : a = b := by
  have hM := pow2_bits t.bits hb
  have hp := pow2_pos (t.bits - 1)
  have hd : pow2 t.bits ∣ a - b := (Int.modEq_iff_dvd.mp h.symm)
  have hlt : |a - b| < pow2 t.bits := by
    unfold IntType.inRange IntType.minValue IntType.maxValue at ha hb2
    rw [abs_lt]
    cases hs : t.isSigned <;> simp only [hs, if_true, Bool.false_eq_true, if_false] at ha hb2 <;>
      constructor <;> omega
  have := Int.eq_zero_of_abs_lt_dvd hd hlt
  omega

/-- The conversion of `x` is the value `n` of the type exactly when `x` and `n`
have the same residue modulo `2 ^ bits`. -/
theorem IntType.cast_eq_iff (t : IntType) (hb : 0 < t.bits) (x n : Int) (hn : t.inRange n) :
    t.cast x = n ↔ x ≡ n [ZMOD pow2 t.bits] := by
  constructor
  · intro h
    rw [← h]
    exact (t.cast_modEq x).symm
  · intro h
    exact t.eq_of_modEq hb _ _ (t.cast_inRange hb x) hn ((t.cast_modEq x).trans h)

/-- Adding `2 ^ bits` to a payload does not change its conversion into the type. -/
theorem IntType.cast_add_pow2 (t : IntType) (u : Nat) :
    t.cast ((u + 2 ^ t.bits : Nat) : Int) = t.cast (u : Int) := by
  have h : ((u + 2 ^ t.bits : Nat) : Int) = (u : Int) + pow2 t.bits := by
    unfold pow2
    exact Nat.cast_add u (2 ^ t.bits)
  rw [h]
  unfold IntType.cast
  split_ifs
  · rw [show (u : Int) + pow2 t.bits + pow2 (t.bits - 1)
        = (u : Int) + pow2 (t.bits - 1) + pow2 t.bits by ring, Int.add_emod_self]
  · rw [Int.add_emod_self]

/-- For a signed type narrower than `int` the difference computed by
`visitNegativeInteger` is computed in `int` and is exact. -/
theorem compare_negativeInteger_promoted (intBits : Nat) (t : IntType) (m : Nat) (n : Int)
    (hs : t.isSigned = true) (hb : 0 < t.bits) (hp : t.bits < intBits) (hm1 : 1 ≤ m)
    (hm : (m : Int) ≤ t.maxValue) (hn : t.inRange n) :
    compare intBits (.negativeInteger m : VariantData F) (.integer t n)
      = sign (-(m : Int) - n) := by
  rw [compare_negativeInteger, negativeInteger_diff intBits t m n hs hb hm1 hm hn]
  have hP : (t.promote intBits).bits = intBits := by
    unfold IntType.promote
    rw [if_pos hp]
  have hmono : pow2 t.bits ≤ pow2 ((t.promote intBits).bits - 1) :=
    pow2_mono (by omega)
  have hM := pow2_bits t.bits hb
  simp only [IntType.inRange, IntType.minValue, IntType.maxValue, hs, if_true] at hn hm
  rw [if_pos (by omega)]

/-- The result of `compare` is `-1`, `0` or `1`. -/
theorem compare_tristate (intBits : Nat) (v : VariantData F) (n : SimpleValue F) :
    compare intBits v n = -1 ∨ compare intBits v n = 0 ∨ compare intBits v n = 1 := by
  cases n with
  | integer t k =>
    cases v <;>
      simp only [VariantComparisons.compare, VariantData.accept, Comparer.intVisitor, sign, signF] <;>
      (try split_ifs) <;> simp
  | floating x =>
    cases v <;>
      simp only [VariantComparisons.compare, VariantData.accept, Comparer.floatVisitor, signF] <;>
      (try split_ifs) <;> simp
  | boolean b =>
    cases v with
    | boolean c => rw [compare_boolean]; cases b <;> cases c <;> simp
    | _ => exact Or.inr (Or.inr rfl)

/-- The result on a negative integer and an operand of an unsigned type that
is not promoted is `0` or `1`, and `0` exactly when the operand and `-m` have
the same residue modulo `2 ^ bits`. -/
theorem compare_negativeInteger_unsigned (intBits : Nat) (t : IntType) (m : Nat) (n : Int)
    (hs : t.isSigned = false) (hp : intBits ≤ t.bits) :
    (compare intBits (.negativeInteger m : VariantData F) (.integer t n) = 0 ∨
      compare intBits (.negativeInteger m : VariantData F) (.integer t n) = 1) ∧
    (compare intBits (.negativeInteger m : VariantData F) (.integer t n) = 0
      ↔ n ≡ -(m : Int) [ZMOD pow2 t.bits]) := by
  have hP : t.promote intBits = t := by
    unfold IntType.promote
    rw [if_neg (by omega)]
  have hpos := pow2_pos t.bits
  have hc : ∀ y : Int, t.cast y = y % pow2 t.bits := by
    intro y
    simp [IntType.cast, hs]
  rw [compare_negativeInteger]
  unfold IntType.sub IntType.neg
  rw [hP]
  have h0 := Int.emod_nonneg (t.cast (-t.cast (m : Int)) - n) hpos.ne.symm
  have hmod : t.cast (-t.cast (m : Int)) - n ≡ -(m : Int) - n [ZMOD pow2 t.bits] :=
    ((t.cast_modEq _).trans (t.cast_modEq _).neg).sub_right n
  constructor
  · rw [hc (t.cast (-t.cast (m : Int)) - n)]
    unfold sign
    split_ifs <;> omega
  · rw [sign_eq_zero, hc (t.cast (-t.cast (m : Int)) - n)]
    have e : (t.cast (-t.cast (m : Int)) - n) % pow2 t.bits = 0
        ↔ -(m : Int) - n ≡ 0 [ZMOD pow2 t.bits] := by
      constructor
      · intro h
        exact hmod.symm.trans (by simpa [Int.ModEq] using h)
      · intro h
        simpa [Int.ModEq] using hmod.trans h
    rw [e, Int.modEq_iff_dvd, Int.modEq_iff_dvd]
    constructor <;> intro h
    · have := dvd_neg.mpr h
      simpa [sub_eq_add_neg, add_comm] using this
    · have := dvd_neg.mpr h
      simpa [sub_eq_add_neg, add_comm] using this

/-- The magnitude kept by rounding: the leading bits `q`, rounded to nearest
with ties to even on the dropped bits `r`, times `2 ^ k`. -/
theorem Flt.round_large (fmt : FloatFormat) (d : Int) (h : ¬ d.natAbs < 2 ^ fmt.prec) :
    ∃ m : Nat, d.natAbs / 2 ^ (d.natAbs.log2 + 1 - fmt.prec) * 2 ^ (d.natAbs.log2 + 1 - fmt.prec) ≤ m ∧
      Flt.round fmt d = if m < 2 ^ fmt.top then .fin (if d < 0 then -(m : Int) else (m : Int))
        else .inf (decide (d < 0)) := by
  unfold Flt.round
  simp only [if_neg h]
  refine ⟨_, ?_, rfl⟩
  apply Nat.mul_le_mul_right
  split_ifs <;> omega

/-- Rounding keeps the sign: the rounded value is below zero exactly when the
exact one is, and above zero exactly when the exact one is. -/
theorem Flt.round_sign (fmt : FloatFormat) (hp : 0 < fmt.prec) (d : Int) :
    (Flt.lt (Flt.round fmt d) (.fin 0) = true ↔ d < 0) ∧
    (Flt.lt (.fin 0) (Flt.round fmt d) = true ↔ 0 < d) := by
  by_cases h : d.natAbs < 2 ^ fmt.prec
  · have e : Flt.round fmt d = .fin d := by
      unfold Flt.round
      simp only [if_pos h]
    rw [e]
    simp [Flt.lt]
  · obtain ⟨m, hm, e⟩ := Flt.round_large fmt d h
    have hpos : 0 < 2 ^ fmt.prec := Nat.pos_pow_of_pos _ (by decide)
    have hne : d.natAbs ≠ 0 := by omega
    have hk : 2 ^ (d.natAbs.log2 + 1 - fmt.prec) ≤ d.natAbs :=
      Nat.le_trans (Nat.pow_le_pow_right (by decide) (by omega)) (Nat.log2_self_le hne)
    have hq : 0 < d.natAbs / 2 ^ (d.natAbs.log2 + 1 - fmt.prec) :=
      Nat.div_pos hk (Nat.pos_pow_of_pos _ (by decide))
    have hm0 : 0 < m :=
      Nat.lt_of_lt_of_le (Nat.mul_pos hq (Nat.pos_pow_of_pos _ (by decide))) hm
    have hd : d ≠ 0 := by
      intro h0
      exact hne (by simp [h0])
    rw [e]
    by_cases hs : d < 0
    · split_ifs <;> simp [Flt.lt, hs] <;> omega
    · split_ifs <;> simp [Flt.lt, hs] <;> omega

/-- A magnitude with at most `prec` significant bits below the overflow bound
is kept by rounding. -/
theorem Flt.round_exact (fmt : FloatFormat) (d : Int) (m j : Nat) (hd : d.natAbs = m * 2 ^ j)
    (hm : m < 2 ^ fmt.prec) (ht : d.natAbs < 2 ^ fmt.top) : Flt.round fmt d = .fin d := by
  by_cases h : d.natAbs < 2 ^ fmt.prec
  · unfold Flt.round
    simp only [if_pos h]
  · have hpos : 0 < 2 ^ fmt.prec := Nat.pos_pow_of_pos _ (by decide)
    have hne : d.natAbs ≠ 0 := by omega
    have hlt : d.natAbs < 2 ^ (fmt.prec + j) := by
      rw [hd, Nat.pow_add]
      exact Nat.mul_lt_mul_of_pos_right hm (Nat.pos_pow_of_pos _ (by decide))
    have hlog : d.natAbs.log2 < fmt.prec + j := (Nat.log2_lt hne).2 hlt
    have hdvd : 2 ^ (d.natAbs.log2 + 1 - fmt.prec) ∣ d.natAbs := by
      have h1 : 2 ^ (d.natAbs.log2 + 1 - fmt.prec) ∣ m * 2 ^ j :=
        Dvd.dvd.mul_left (Nat.pow_dvd_pow 2 (by omega)) m
      rwa [← hd] at h1
    have hr : d.natAbs % 2 ^ (d.natAbs.log2 + 1 - fmt.prec) = 0 := Nat.mod_eq_zero_of_dvd hdvd
    have hq : d.natAbs / 2 ^ (d.natAbs.log2 + 1 - fmt.prec) * 2 ^ (d.natAbs.log2 + 1 - fmt.prec)
        = d.natAbs := Nat.div_mul_cancel hdvd
    have hk : 0 < 2 ^ (d.natAbs.log2 + 1 - fmt.prec) := Nat.pos_pow_of_pos _ (by decide)
    unfold Flt.round
    simp only [if_neg h, hr, Nat.mul_zero, hk, if_true, hq, ht]
    congr 1
    split_ifs <;> omega

/-- Rounding of a magnitude given by its `prec` leading bits `q` and its `k`
dropped bits `r`. -/
theorem Flt.round_decomp (fmt : FloatFormat) (hp : 0 < fmt.prec) (d : Int) (q k r : Nat)
    (hk : 0 < k) (hq1 : 2 ^ (fmt.prec - 1) ≤ q) (hq2 : q < 2 ^ fmt.prec) (hr : r < 2 ^ k)
    (hd : d.natAbs = q * 2 ^ k + r) :
    Flt.round fmt d =
      if (if 2 * r < 2 ^ k then q else if 2 ^ k < 2 * r then q + 1
          else if q % 2 = 0 then q else q + 1) * 2 ^ k < 2 ^ fmt.top
      then .fin (if d < 0
        then -(((if 2 * r < 2 ^ k then q else if 2 ^ k < 2 * r then q + 1
          else if q % 2 = 0 then q else q + 1) * 2 ^ k : Nat) : Int)
        else (((if 2 * r < 2 ^ k then q else if 2 ^ k < 2 * r then q + 1
          else if q % 2 = 0 then q else q + 1) * 2 ^ k : Nat) : Int))
      else .inf (decide (d < 0)) := by
  have h2k : 0 < 2 ^ k := Nat.pos_pow_of_pos _ (by decide)
  have e1 : 2 ^ (fmt.prec - 1 + k) = 2 ^ (fmt.prec - 1) * 2 ^ k := Nat.pow_add 2 _ _
  have e2 : 2 ^ (fmt.prec - 1 + k + 1) = 2 ^ fmt.prec * 2 ^ k := by
    rw [show fmt.prec - 1 + k + 1 = fmt.prec + k by omega, Nat.pow_add]
  have hlo : 2 ^ (fmt.prec - 1 + k) ≤ d.natAbs := by
    rw [hd, e1]
    exact Nat.le_trans (Nat.mul_le_mul_right _ hq1) (Nat.le_add_right _ _)
  have hhi : d.natAbs < 2 ^ (fmt.prec - 1 + k + 1) := by
    rw [hd, e2]
    calc q * 2 ^ k + r < q * 2 ^ k + 2 ^ k := by omega
      _ = (q + 1) * 2 ^ k := by ring
      _ ≤ 2 ^ fmt.prec * 2 ^ k := Nat.mul_le_mul_right _ hq2
  have hne : d.natAbs ≠ 0 := by
    have := Nat.pos_pow_of_pos (fmt.prec - 1 + k) (show 0 < 2 by decide)
    omega
  have hlog : d.natAbs.log2 = fmt.prec - 1 + k :=
    Nat.le_antisymm (Nat.le_of_lt_succ ((Nat.log2_lt hne).2 hhi)) ((Nat.le_log2 hne).2 hlo)
  have hbig : ¬ d.natAbs < 2 ^ fmt.prec := by
    have : 2 ^ fmt.prec ≤ 2 ^ (fmt.prec - 1 + k) := Nat.pow_le_pow_right (by decide) (by omega)
    omega
  have hkk : d.natAbs.log2 + 1 - fmt.prec = k := by omega
  have hdiv : d.natAbs / 2 ^ k = q := by
    rw [hd, Nat.mul_comm, Nat.mul_add_div h2k, Nat.div_eq_of_lt hr, Nat.add_zero]
  have hmod : d.natAbs % 2 ^ k = r := by
    rw [hd, Nat.mul_comm, Nat.mul_add_mod, Nat.mod_eq_of_lt hr]
  unfold Flt.round
  simp only [if_neg hbig, hkk, hdiv, hmod]

/-- The helper `sign` is below zero exactly below zero. -/
theorem sign_neg_iff (x : Int) : sign x < 0 ↔ x < 0 := by
  unfold sign
  split_ifs <;> omega

/-- The helper `sign` is above zero exactly above zero. -/
theorem sign_pos_iff (x : Int) : sign x > 0 ↔ x > 0 := by
  unfold sign
  split_ifs <;> omega

/-- The helper `sign` at a rounded value is the sign of the exact value. -/
theorem signF_round (fmt : FloatFormat) (hp : 0 < fmt.prec) (d : Int) :
    signF (Flt.round fmt d) = sign d := by
  obtain ⟨h1, h2⟩ := Flt.round_sign fmt hp d
  unfold signF sign
  have e1 : FloatType.lt (Flt.round fmt d) (FloatType.zero : Flt fmt)
      = Flt.lt (Flt.round fmt d) (.fin 0) := rfl
  have e2 : FloatType.lt (FloatType.zero : Flt fmt) (Flt.round fmt d)
      = Flt.lt (.fin 0) (Flt.round fmt d) := rfl
  rw [e1, e2]
  by_cases hn : d < 0
  · rw [if_pos (h1.2 hn), if_pos hn]
  · have hf : ¬ Flt.lt (Flt.round fmt d) (.fin 0) = true := fun h => hn (h1.1 h)
    rw [if_neg hf, if_neg hn]
    by_cases hq : 0 < d
    · rw [if_pos (h2.2 hq), if_pos hq]
    · have hg : ¬ Flt.lt (.fin 0) (Flt.round fmt d) = true := fun h => hq (h2.1 h)
      rw [if_neg hg, if_neg hq]

/-- The result on a finite float and a finite floating-point operand is the
sign of the exact difference. -/
theorem compare_float_floating (fmt : FloatFormat) (hp : 0 < fmt.prec) (intBits : Nat)
    (a b : Int) :
    compare intBits (.float (.fin a) : VariantData (Flt fmt)) (.floating (.fin b))
      = sign (a - b) :=
  signF_round fmt hp (a - b)

/-- The result on a finite float and an integer operand whose conversion is
the finite number of `c` units is the sign of the exact difference of the
float and the converted operand. -/
theorem compare_float_integer (fmt : FloatFormat) (hp : 0 < fmt.prec) (intBits : Nat)
    (t : IntType) (a n c : Int) (hn : (FloatType.ofInt n : Flt fmt) = .fin c) :
    compare intBits (.float (.fin a) : VariantData (Flt fmt)) (.integer t n)
      = sign (a - c) := by
  have e : compare intBits (.float (.fin a) : VariantData (Flt fmt)) (.integer t n)
      = signF (Flt.sub (.fin a) (FloatType.ofInt n : Flt fmt)) := rfl
  rw [e, hn]
  exact signF_round fmt hp (a - c)

/-- The result on a NaN float is `0`, for every integer and every
floating-point operand. -/
theorem compare_float_nan (fmt : FloatFormat) (intBits : Nat) (t : IntType) (n : Int)
    (x : Flt fmt) :
    compare intBits (.float .nan : VariantData (Flt fmt)) (.integer t n) = 0 ∧
    compare intBits (.float .nan : VariantData (Flt fmt)) (.floating x) = 0 := by
  have hs : ∀ y : Flt fmt, Flt.sub .nan y = .nan := by
    intro y
    cases y <;> rfl
  have e1 : compare intBits (.float .nan : VariantData (Flt fmt)) (.integer t n)
      = signF (Flt.sub .nan (FloatType.ofInt n : Flt fmt)) := rfl
  have e2 : compare intBits (.float .nan : VariantData (Flt fmt)) (.floating x)
      = signF (Flt.sub .nan x) := rfl
  rw [e1, e2, hs, hs]
  exact ⟨rfl, rfl⟩

/-- The numbers that two counts of units stand for are ordered as the counts. -/
theorem FloatFormat.value_lt_iff (fmt : FloatFormat) (a b : Int) :
    fmt.value a < fmt.value b ↔ a < b := by
  unfold FloatFormat.value
  rw [div_lt_div_iff_of_pos_right (by positivity)]
  exact Int.cast_lt

/-- Two counts of units stand for the same number only if they are equal. -/
theorem FloatFormat.value_eq_iff (fmt : FloatFormat) (a b : Int) :
    fmt.value a = fmt.value b ↔ a = b := by
  unfold FloatFormat.value
  rw [div_left_inj' (by positivity)]
  exact Int.cast_inj

/-- The integer `n`, written in units, stands for `n`. -/
theorem FloatFormat.value_units (fmt : FloatFormat) (n : Int) :
    fmt.value (n * pow2 fmt.scale) = (n : ℚ) := by
  unfold FloatFormat.value pow2
  push_cast
  field_simp

/-- An integer with fewer than `prec` significant bits is converted exactly,
in a format whose finite range holds `2 ^ prec`. -/
theorem Flt.ofInt_exact (fmt : FloatFormat) (hr : fmt.prec + fmt.scale ≤ fmt.top) (n : Int)
    (hn : n.natAbs < 2 ^ fmt.prec) :
    (FloatType.ofInt n : Flt fmt) = .fin (n * pow2 fmt.scale) := by
  have hd : (n * pow2 fmt.scale).natAbs = n.natAbs * 2 ^ fmt.scale := by
    rw [Int.natAbs_mul]
    rfl
  refine Flt.round_exact fmt _ n.natAbs fmt.scale hd hn ?_
  rw [hd]
  calc n.natAbs * 2 ^ fmt.scale < 2 ^ fmt.prec * 2 ^ fmt.scale :=
        Nat.mul_lt_mul_of_pos_right hn (Nat.pos_pow_of_pos _ (by decide))
    _ = 2 ^ (fmt.prec + fmt.scale) := (Nat.pow_add 2 _ _).symm
    _ ≤ 2 ^ fmt.top := Nat.pow_le_pow_right (by decide) hr

set_option exponentiation.threshold 4096 in
/-- In binary64 the integer `2 ^ 53 + 1` lies halfway between two numbers of
the format and is converted to the even one, `2 ^ 53`. -/
theorem binary64_ofInt_tie :
    (FloatType.ofInt 9007199254740993 : Flt binary64) = .fin (pow2 53 * pow2 1074) := by
  have h := Flt.round_decomp binary64 (by decide) (9007199254740993 * pow2 1074)
    (2 ^ 52) 1075 (2 ^ 1074) (by decide) (by decide) (by decide) (by decide) (by decide)
  have e : (FloatType.ofInt 9007199254740993 : Flt binary64)
      = Flt.round binary64 (9007199254740993 * pow2 1074) := rfl
  rw [e, h]
  decide

/-- The sign of a difference of units is the sign of the difference of the
numbers they stand for. -/
theorem sign_sub_value (fmt : FloatFormat) (a b : Int) :
    sign (a - b) = if fmt.value a - fmt.value b < 0 then -1
      else if fmt.value a - fmt.value b > 0 then 1 else 0 := by
  have h1 : fmt.value a - fmt.value b < 0 ↔ a - b < 0 := by
    rw [sub_neg, fmt.value_lt_iff]
    omega
  have h2 : fmt.value a - fmt.value b > 0 ↔ a - b > 0 := by
    rw [gt_iff_lt, sub_pos, fmt.value_lt_iff]
    omega
  unfold sign
  simp only [h1, h2]

/-! ## The claims -/

/-- C1: a positive integer whose payload `u` is a value of the integer type
`t` compares with every operand `n` of type `t` as `u` compares with `n`, for
each predicate and in both operand orders. -/
theorem C1_positiveInteger_order (intBits : Nat) (t : IntType) (u : Nat) (n : Int)
    (hb : 0 < t.bits) (hu : t.inRange u) :
    (operator_eq_VT intBits (.positiveInteger u : VariantData F) (.integer t n) = true ↔ (u : Int) = n) ∧
    (operator_eq_TV intBits (.integer t n) (.positiveInteger u : VariantData F) = true ↔ n = (u : Int)) ∧
    (operator_ne_VT intBits (.positiveInteger u : VariantData F) (.integer t n) = true ↔ (u : Int) ≠ n) ∧
    (operator_ne_TV intBits (.integer t n) (.positiveInteger u : VariantData F) = true ↔ n ≠ (u : Int)) ∧
    (operator_lt_VT intBits (.positiveInteger u : VariantData F) (.integer t n) = true ↔ (u : Int) < n) ∧
    (operator_lt_TV intBits (.integer t n) (.positiveInteger u : VariantData F) = true ↔ n < (u : Int)) ∧
    (operator_gt_VT intBits (.positiveInteger u : VariantData F) (.integer t n) = true ↔ (u : Int) > n) ∧
    (operator_gt_TV intBits (.integer t n) (.positiveInteger u : VariantData F) = true ↔ n > (u : Int)) ∧
    (operator_le_VT intBits (.positiveInteger u : VariantData F) (.integer t n) = true ↔ (u : Int) ≤ n) ∧
    (operator_le_TV intBits (.integer t n) (.positiveInteger u : VariantData F) = true ↔ n ≤ (u : Int)) ∧
    (operator_ge_VT intBits (.positiveInteger u : VariantData F) (.integer t n) = true ↔ (u : Int) ≥ n) ∧
    (operator_ge_TV intBits (.integer t n) (.positiveInteger u : VariantData F) = true ↔ n ≥ (u : Int)) := by
  simp only [operator_eq_VT, operator_eq_TV, operator_ne_VT, operator_ne_TV, operator_lt_VT,
    operator_lt_TV, operator_gt_VT, operator_gt_TV, operator_le_VT, operator_le_TV,
    operator_ge_VT, operator_ge_TV, compare_positiveInteger, t.cast_of_inRange hb u hu,
    decide_eq_true_eq]
  refine ⟨?_, ?_, ?_, ?_, ?_, ?_, ?_, ?_, ?_, ?_, ?_, ?_⟩ <;> split_ifs <;> first | omega | (simp; omega)

/-- C1, at payload 42 and `int32_t` operand 42 on a target with a 32-bit `int`. -/
theorem C1_positiveInteger_order_witness :
    (0 < int32.bits ∧ int32.inRange ((42 : Nat) : Int)) ∧
    ((operator_eq_VT 32 (.positiveInteger 42 : VariantData ℚ) (.integer int32 42) = true ↔ ((42 : Nat) : Int) = 42) ∧
    (operator_eq_TV 32 (.integer int32 42) (.positiveInteger 42 : VariantData ℚ) = true ↔ 42 = ((42 : Nat) : Int)) ∧
    (operator_ne_VT 32 (.positiveInteger 42 : VariantData ℚ) (.integer int32 42) = true ↔ ((42 : Nat) : Int) ≠ 42) ∧
    (operator_ne_TV 32 (.integer int32 42) (.positiveInteger 42 : VariantData ℚ) = true ↔ 42 ≠ ((42 : Nat) : Int)) ∧
    (operator_lt_VT 32 (.positiveInteger 42 : VariantData ℚ) (.integer int32 42) = true ↔ ((42 : Nat) : Int) < 42) ∧
    (operator_lt_TV 32 (.integer int32 42) (.positiveInteger 42 : VariantData ℚ) = true ↔ 42 < ((42 : Nat) : Int)) ∧
    (operator_gt_VT 32 (.positiveInteger 42 : VariantData ℚ) (.integer int32 42) = true ↔ ((42 : Nat) : Int) > 42) ∧
    (operator_gt_TV 32 (.integer int32 42) (.positiveInteger 42 : VariantData ℚ) = true ↔ 42 > ((42 : Nat) : Int)) ∧
    (operator_le_VT 32 (.positiveInteger 42 : VariantData ℚ) (.integer int32 42) = true ↔ ((42 : Nat) : Int) ≤ 42) ∧
    (operator_le_TV 32 (.integer int32 42) (.positiveInteger 42 : VariantData ℚ) = true ↔ 42 ≤ ((42 : Nat) : Int)) ∧
    (operator_ge_VT 32 (.positiveInteger 42 : VariantData ℚ) (.integer int32 42) = true ↔ ((42 : Nat) : Int) ≥ 42) ∧
    (operator_ge_TV 32 (.integer int32 42) (.positiveInteger 42 : VariantData ℚ) = true ↔ 42 ≥ ((42 : Nat) : Int))) :=
  ⟨⟨by decide, by decide⟩, C1_positiveInteger_order 32 int32 42 42 (by decide) (by decide)⟩

/-- C2: outside the home family of the operand, that is for a numeric operand
and a variant of kind null, boolean, string, raw, array or object, and for a
boolean operand and a variant of any kind but boolean, the two are not equal,
in either operand order. -/
theorem C2_cross_family_never_equal (intBits : Nat) (v : VariantData F) (n : SimpleValue F)
    (h : v.kind ∉ n.home) :
    operator_eq_VT intBits v n = false ∧ operator_eq_TV intBits n v = false ∧
    operator_ne_VT intBits v n = true ∧ operator_ne_TV intBits n v = true := by
  simp [operator_eq_VT, operator_eq_TV, operator_ne_VT, operator_ne_TV,
    compare_of_not_home intBits v n h]

/-- C2, at the string "42" and the `int32_t` operand 42. -/
theorem C2_cross_family_never_equal_witness :
    (VariantData.string [52, 50] : VariantData ℚ).kind ∉ (SimpleValue.integer int32 42 : SimpleValue ℚ).home ∧
    (operator_eq_VT 32 (.string [52, 50] : VariantData ℚ) (.integer int32 42) = false ∧
     operator_eq_TV 32 (.integer int32 42) (.string [52, 50] : VariantData ℚ) = false ∧
     operator_ne_VT 32 (.string [52, 50] : VariantData ℚ) (.integer int32 42) = true ∧
     operator_ne_TV 32 (.integer int32 42) (.string [52, 50] : VariantData ℚ) = true) :=
  ⟨by decide, C2_cross_family_never_equal 32 _ _ (by decide)⟩

/-- C3: each not-equal operator is the negation of the equal operator on the
same operands, for string-like operands (any adapter) and simple values, in
both operand orders. -/
theorem C3_negation_law {T : Type} (A : StringAdapter T) (intBits : Nat) (v : VariantData F)
    (s : T) (n : SimpleValue F) :
    operator_ne_VS A v s = !operator_eq_VS A v s ∧
    operator_ne_SV A s v = !operator_eq_SV A s v ∧
    operator_ne_VT intBits v n = !operator_eq_VT intBits v n ∧
    operator_ne_TV intBits n v = !operator_eq_TV intBits n v := by
  refine ⟨rfl, rfl, ?_, ?_⟩ <;> simp [operator_ne_VT, operator_eq_VT, operator_ne_TV, operator_eq_TV]

/-- C4: swapping the operands of an ordering operator on a simple value swaps
the operator for its mirror image. -/
theorem C4_order_swap (intBits : Nat) (v : VariantData F) (n : SimpleValue F) :
    operator_lt_VT intBits v n = operator_gt_TV intBits n v ∧
    operator_gt_VT intBits v n = operator_lt_TV intBits n v ∧
    operator_le_VT intBits v n = operator_ge_TV intBits n v ∧
    operator_ge_VT intBits v n = operator_le_TV intBits n v :=
  ⟨rfl, rfl, rfl, rfl⟩

/-- C5: the equal operator gives the same answer in both operand orders, for
string-like operands (any adapter) and simple values. -/
theorem C5_equal_swap {T : Type} (A : StringAdapter T) (intBits : Nat) (v : VariantData F)
    (s : T) (n : SimpleValue F) :
    operator_eq_VS A v s = operator_eq_SV A s v ∧
    operator_eq_VT intBits v n = operator_eq_TV intBits n v :=
  ⟨rfl, rfl⟩

/-- C6: for a signed integer type `t` and a magnitude `m` with
`1 ≤ m ≤ max(t)`, the negative integer of payload `m` is equal to the operand
`-m` of type `t`, in both operand orders, and an operand `n` of type `t` is
equal to it only if `n` is `-m`. -/
theorem C6_negativeInteger_equal (intBits : Nat) (t : IntType) (m : Nat) (n : Int)
    (hs : t.isSigned = true) (hb : 0 < t.bits) (hm1 : 1 ≤ m) (hm : (m : Int) ≤ t.maxValue)
    (hn : t.inRange n) :
    (operator_eq_VT intBits (.negativeInteger m : VariantData F) (.integer t (-(m : Int))) = true ∧
     operator_eq_TV intBits (.integer t (-(m : Int))) (.negativeInteger m : VariantData F) = true ∧
     operator_ne_VT intBits (.negativeInteger m : VariantData F) (.integer t (-(m : Int))) = false ∧
     operator_ne_TV intBits (.integer t (-(m : Int))) (.negativeInteger m : VariantData F) = false) ∧
    ((operator_eq_VT intBits (.negativeInteger m : VariantData F) (.integer t n) = true ↔ n = -(m : Int)) ∧
     (operator_eq_TV intBits (.integer t n) (.negativeInteger m : VariantData F) = true ↔ n = -(m : Int)) ∧
     (operator_ne_VT intBits (.negativeInteger m : VariantData F) (.integer t n) = true ↔ n ≠ -(m : Int)) ∧
     (operator_ne_TV intBits (.integer t n) (.negativeInteger m : VariantData F) = true ↔ n ≠ -(m : Int))) := by
  have hself : t.inRange (-(m : Int)) := by
    have hH := pow2_pos (t.bits - 1)
    simp only [IntType.inRange, IntType.minValue, IntType.maxValue, hs, if_true] at hm ⊢
    omega
  have k1 := compare_negativeInteger_eq_zero (F := F) intBits t m _ hs hb hm1 hm hself
  have k2 := compare_negativeInteger_eq_zero (F := F) intBits t m n hs hb hm1 hm hn
  refine ⟨?_, ?_⟩
  · simp [operator_eq_VT, operator_eq_TV, operator_ne_VT, operator_ne_TV, k1]
  · simp [operator_eq_VT, operator_eq_TV, operator_ne_VT, operator_ne_TV, k2]

/-- C6, at payload 5 and the `int32_t` operand 7 on a target with a 32-bit
`int`: payload 5 is equal to `-5` and not to `7`. -/
theorem C6_negativeInteger_equal_witness :
    (int32.isSigned = true ∧ 0 < int32.bits ∧ 1 ≤ 5 ∧ ((5 : Nat) : Int) ≤ int32.maxValue ∧
      int32.inRange 7) ∧
    (operator_eq_VT 32 (.negativeInteger 5 : VariantData ℚ) (.integer int32 (-((5 : Nat) : Int))) = true ∧
     operator_eq_TV 32 (.integer int32 (-((5 : Nat) : Int))) (.negativeInteger 5 : VariantData ℚ) = true ∧
     operator_ne_VT 32 (.negativeInteger 5 : VariantData ℚ) (.integer int32 (-((5 : Nat) : Int))) = false ∧
     operator_ne_TV 32 (.integer int32 (-((5 : Nat) : Int))) (.negativeInteger 5 : VariantData ℚ) = false) ∧
    ((operator_eq_VT 32 (.negativeInteger 5 : VariantData ℚ) (.integer int32 7) = true ↔ (7 : Int) = -((5 : Nat) : Int)) ∧
     (operator_eq_TV 32 (.integer int32 7) (.negativeInteger 5 : VariantData ℚ) = true ↔ (7 : Int) = -((5 : Nat) : Int)) ∧
     (operator_ne_VT 32 (.negativeInteger 5 : VariantData ℚ) (.integer int32 7) = true ↔ (7 : Int) ≠ -((5 : Nat) : Int)) ∧
     (operator_ne_TV 32 (.integer int32 7) (.negativeInteger 5 : VariantData ℚ) = true ↔ (7 : Int) ≠ -((5 : Nat) : Int))) :=
  ⟨⟨rfl, by decide, by decide, by decide, by decide⟩,
    C6_negativeInteger_equal 32 int32 5 7 rfl (by decide) (by decide) (by decide) (by decide)⟩

/-- C7: on a boolean variant `b` and a boolean operand `n` the result is the
difference of the 0/1 values of `b` and `n`; so the two are equal iff `b = n`,
the variant is less iff `b` is false and `n` true, and greater iff `b` is true
and `n` false, in both operand orders. -/
theorem C7_boolean_exact (intBits : Nat) (b n : Bool) :
    compare intBits (.boolean b : VariantData F) (.boolean n)
      = (if b then 1 else 0) - (if n then 1 else 0) ∧
    (operator_eq_VT intBits (.boolean b : VariantData F) (.boolean n) = true ↔ b = n) ∧
    (operator_eq_TV intBits (.boolean n) (.boolean b : VariantData F) = true ↔ b = n) ∧
    (operator_lt_VT intBits (.boolean b : VariantData F) (.boolean n) = true ↔ b = false ∧ n = true) ∧
    (operator_gt_TV intBits (.boolean n) (.boolean b : VariantData F) = true ↔ b = false ∧ n = true) ∧
    (operator_gt_VT intBits (.boolean b : VariantData F) (.boolean n) = true ↔ b = true ∧ n = false) ∧
    (operator_lt_TV intBits (.boolean n) (.boolean b : VariantData F) = true ↔ b = true ∧ n = false) ∧
    operator_eq_VT intBits (.boolean true : VariantData F) (.boolean true) = true ∧
    operator_eq_VT intBits (.boolean true : VariantData F) (.boolean false) = false ∧
    operator_lt_VT intBits (.boolean false : VariantData F) (.boolean true) = true := by
  simp only [operator_eq_VT, operator_eq_TV, operator_lt_VT, operator_lt_TV, operator_gt_VT,
    operator_gt_TV, compare_boolean]
  cases b <;> cases n <;> simp

/-- C8: a null variant is equal to a string-like operand exactly when the
string adapter reports the operand as null, in both operand orders; with the
adapter of `const char*` it is equal to the absent string and to no string
that is present. -/
theorem C8_null_string {F T : Type} (A : StringAdapter T) (s : T) (c : CStr) :
    operator_eq_VS A (.null : VariantData F) s = A.isNull s ∧
    operator_eq_SV A s (.null : VariantData F) = A.isNull s ∧
    operator_eq_VS constCharAdapter (.null : VariantData F) none = true ∧
    operator_eq_SV constCharAdapter none (.null : VariantData F) = true ∧
    operator_eq_VS constCharAdapter (.null : VariantData F) (some c) = false ∧
    operator_eq_SV constCharAdapter (some c) (.null : VariantData F) = false :=
  ⟨rfl, rfl, rfl, rfl, rfl, rfl⟩

/-- C9: a variant of kind boolean, positive integer, negative integer, float,
raw, array or object is not equal to any string-like operand, whatever the
adapter and the operand, in either operand order. -/
theorem C9_non_string_never_equal {F T : Type} (A : StringAdapter T) (v : VariantData F) (s : T)
    (h : v.kind ∈ [Kind.boolean, Kind.positiveInteger, Kind.negativeInteger, Kind.float,
      Kind.rawJson, Kind.array, Kind.object]) :
    operator_eq_VS A v s = false ∧ operator_eq_SV A s v = false ∧
    operator_ne_VS A v s = true ∧ operator_ne_SV A s v = true := by
  cases v <;> first
    | exact ⟨rfl, rfl, rfl, rfl⟩
    | (exfalso; revert h; simp [VariantData.kind])

/-- C9, at the positive integer 42 and the string "42". -/
theorem C9_non_string_never_equal_witness :
    (VariantData.positiveInteger 42 : VariantData ℚ).kind ∈ [Kind.boolean, Kind.positiveInteger,
      Kind.negativeInteger, Kind.float, Kind.rawJson, Kind.array, Kind.object] ∧
    (operator_eq_VS constCharAdapter (.positiveInteger 42 : VariantData ℚ) (some [52, 50]) = false ∧
     operator_eq_SV constCharAdapter (some [52, 50]) (.positiveInteger 42 : VariantData ℚ) = false ∧
     operator_ne_VS constCharAdapter (.positiveInteger 42 : VariantData ℚ) (some [52, 50]) = true ∧
     operator_ne_SV constCharAdapter (some [52, 50]) (.positiveInteger 42 : VariantData ℚ) = true) :=
  ⟨by decide, C9_non_string_never_equal constCharAdapter _ _ (by decide)⟩

/-- C10: outside the home family of the operand the result stays `1`: the
variant is greater and greater-or-equal, not less and not less-or-equal, and
with the operands swapped the operand is less and less-or-equal, not greater
and not greater-or-equal, whatever the payload and the operand. -/
theorem C10_cross_family_order (intBits : Nat) (v : VariantData F) (n : SimpleValue F)
    (h : v.kind ∉ n.home) :
    compare intBits v n = 1 ∧
    operator_gt_VT intBits v n = true ∧ operator_ge_VT intBits v n = true ∧
    operator_lt_VT intBits v n = false ∧ operator_le_VT intBits v n = false ∧
    operator_lt_TV intBits n v = true ∧ operator_le_TV intBits n v = true ∧
    operator_gt_TV intBits n v = false ∧ operator_ge_TV intBits n v = false := by
  simp [operator_gt_VT, operator_ge_VT, operator_lt_VT, operator_le_VT, operator_lt_TV,
    operator_le_TV, operator_gt_TV, operator_ge_TV, compare_of_not_home intBits v n h]

/-- C10, at the null variant and the boolean operand `true`. -/
theorem C10_cross_family_order_witness :
    (VariantData.null : VariantData ℚ).kind ∉ (SimpleValue.boolean true : SimpleValue ℚ).home ∧
    (compare 32 (.null : VariantData ℚ) (.boolean true) = 1 ∧
     operator_gt_VT 32 (.null : VariantData ℚ) (.boolean true) = true ∧
     operator_ge_VT 32 (.null : VariantData ℚ) (.boolean true) = true ∧
     operator_lt_VT 32 (.null : VariantData ℚ) (.boolean true) = false ∧
     operator_le_VT 32 (.null : VariantData ℚ) (.boolean true) = false ∧
     operator_lt_TV 32 (.boolean true) (.null : VariantData ℚ) = true ∧
     operator_le_TV 32 (.boolean true) (.null : VariantData ℚ) = true ∧
     operator_gt_TV 32 (.boolean true) (.null : VariantData ℚ) = false ∧
     operator_ge_TV 32 (.boolean true) (.null : VariantData ℚ) = false) :=
  ⟨by decide, C10_cross_family_order 32 _ _ (by decide)⟩

/-- C11 as stated fails: for the null variant and the boolean operand `true`,
a cross-family pair, the operand is not greater than the variant and the
variant is not less than the operand. -/
theorem C11_native_greater_counterexample :
    (VariantData.null : VariantData ℚ).kind ∉ (SimpleValue.boolean true : SimpleValue ℚ).home ∧
    ¬ (operator_gt_TV 32 (.boolean true) (.null : VariantData ℚ) = true ∧
       operator_lt_VT 32 (.null : VariantData ℚ) (.boolean true) = true ∧
       operator_lt_TV 32 (.boolean true) (.null : VariantData ℚ) = false ∧
       operator_gt_VT 32 (.null : VariantData ℚ) (.boolean true) = false) := by
  decide

/-- C11, amended: outside the home family of the operand the initial result
`1` makes the variant the greater one: the variant is greater than the
operand and the operand less than the variant, while the variant is not less
than the operand and the operand not greater than the variant. -/
theorem C11_variant_greater (intBits : Nat) (v : VariantData F) (n : SimpleValue F)
    (h : v.kind ∉ n.home) :
    operator_gt_VT intBits v n = true ∧ operator_lt_TV intBits n v = true ∧
    operator_lt_VT intBits v n = false ∧ operator_gt_TV intBits n v = false := by
  have hc := compare_of_not_home intBits v n h
  simp [operator_gt_VT, operator_lt_TV, operator_lt_VT, operator_gt_TV, hc]

/-- C11 amended, at the array variant and the `int32_t` operand 0. -/
theorem C11_variant_greater_witness :
    (VariantData.array : VariantData ℚ).kind ∉ (SimpleValue.integer int32 0 : SimpleValue ℚ).home ∧
    (operator_gt_VT 32 (.array : VariantData ℚ) (.integer int32 0) = true ∧
     operator_lt_TV 32 (.integer int32 0) (.array : VariantData ℚ) = true ∧
     operator_lt_VT 32 (.array : VariantData ℚ) (.integer int32 0) = false ∧
     operator_gt_TV 32 (.integer int32 0) (.array : VariantData ℚ) = false) :=
  ⟨by decide, C11_variant_greater 32 _ _ (by decide)⟩

set_option exponentiation.threshold 4096 in
/-- C12 as stated fails: in binary64 the float `2 ^ 53` (a number of the
format) and the `int64_t` operand `2 ^ 53 + 1` are different exact numbers,
the float being the smaller, yet the operand is rounded to `2 ^ 53` when it
is converted, so the result is `0`: the two are equal and the float is not
less. -/
theorem C12_float_exact_counterexample :
    ((Flt.fin (pow2 53 * pow2 1074) : Flt binary64).valid ∧
      binary64.value (pow2 53 * pow2 1074) = 9007199254740992 ∧
      int64.inRange 9007199254740993) ∧
    binary64.value (pow2 53 * pow2 1074) < ((9007199254740993 : Int) : ℚ) ∧
    compare 32 (.float (.fin (pow2 53 * pow2 1074)) : VariantData (Flt binary64))
      (.integer int64 9007199254740993) = 0 ∧
    ¬ (operator_eq_VT 32 (.float (.fin (pow2 53 * pow2 1074)) : VariantData (Flt binary64))
        (.integer int64 9007199254740993) = true
      ↔ binary64.value (pow2 53 * pow2 1074) = ((9007199254740993 : Int) : ℚ)) ∧
    ¬ (operator_lt_VT 32 (.float (.fin (pow2 53 * pow2 1074)) : VariantData (Flt binary64))
        (.integer int64 9007199254740993) = true
      ↔ binary64.value (pow2 53 * pow2 1074) < ((9007199254740993 : Int) : ℚ)) := by
  have hv : binary64.value (pow2 53 * pow2 1074) = 9007199254740992 := by
    have h := binary64.value_units (pow2 53)
    have e : binary64.scale = 1074 := rfl
    rw [e] at h
    rw [h]
    norm_num [pow2]
  have hc : compare 32 (.float (.fin (pow2 53 * pow2 1074)) : VariantData (Flt binary64))
      (.integer int64 9007199254740993) = 0 := by
    rw [compare_float_integer binary64 (by decide) 32 int64 _ _ _ binary64_ofInt_tie, sub_self]
    rfl
  refine ⟨⟨?_, hv, by decide⟩, ?_, hc, ?_, ?_⟩
  · exact Flt.round_exact binary64 _ 1 1127 (by decide) (by decide) (by decide)
  · rw [hv]; norm_num
  · rw [operator_eq_VT, hc, hv]; norm_num
  · rw [operator_lt_VT, hc, hv]; norm_num

set_option exponentiation.threshold 4096 in
/-- C12, amended: for a finite float payload (not NaN, not infinite) and a
finite floating-point operand, and for an integer operand whose conversion
to the floating-point type is exact, the result is the sign of the exact
difference of the two numbers: so the two are equal, the float is less, or
the float is greater exactly when the numbers are; in binary64 the float
`3.0` is equal to the integer 3 and the float nearest to `2.9` is less than
the integer 3. -/
theorem C12_float_sign (fmt : FloatFormat) (hp : 0 < fmt.prec) (intBits : Nat) (t : IntType)
    (a b n : Int) (hn : (FloatType.ofInt n : Flt fmt) = .fin (n * pow2 fmt.scale)) :
    (compare intBits (.float (.fin a) : VariantData (Flt fmt)) (.floating (.fin b))
      = if fmt.value a - fmt.value b < 0 then -1
        else if fmt.value a - fmt.value b > 0 then 1 else 0) ∧
    (operator_eq_VT intBits (.float (.fin a) : VariantData (Flt fmt)) (.floating (.fin b)) = true
      ↔ fmt.value a = fmt.value b) ∧
    (operator_lt_VT intBits (.float (.fin a) : VariantData (Flt fmt)) (.floating (.fin b)) = true
      ↔ fmt.value a < fmt.value b) ∧
    (operator_gt_VT intBits (.float (.fin a) : VariantData (Flt fmt)) (.floating (.fin b)) = true
      ↔ fmt.value a > fmt.value b) ∧
    (compare intBits (.float (.fin a) : VariantData (Flt fmt)) (.integer t n)
      = if fmt.value a - (n : ℚ) < 0 then -1 else if fmt.value a - (n : ℚ) > 0 then 1 else 0) ∧
    (operator_eq_VT intBits (.float (.fin a) : VariantData (Flt fmt)) (.integer t n) = true
      ↔ fmt.value a = (n : ℚ)) ∧
    (operator_lt_VT intBits (.float (.fin a) : VariantData (Flt fmt)) (.integer t n) = true
      ↔ fmt.value a < (n : ℚ)) ∧
    (operator_gt_VT intBits (.float (.fin a) : VariantData (Flt fmt)) (.integer t n) = true
      ↔ fmt.value a > (n : ℚ)) ∧
    operator_eq_VT 32 (.float (.fin (3 * pow2 1074)) : VariantData (Flt binary64))
      (.integer int32 3) = true ∧
    operator_lt_VT 32 (.float (.fin (6530219459687219 * pow2 1023)) : VariantData (Flt binary64))
      (.integer int32 3) = true := by
  have hf := compare_float_floating fmt hp intBits a b
  have hi := compare_float_integer fmt hp intBits t a n _ hn
  have h3 : (FloatType.ofInt 3 : Flt binary64) = .fin (3 * pow2 binary64.scale) :=
    Flt.ofInt_exact binary64 (by decide) 3 (by decide)
  have hu := fmt.value_units n
  refine ⟨?_, ?_, ?_, ?_, ?_, ?_, ?_, ?_, ?_, ?_⟩
  · rw [hf, sign_sub_value fmt]
  · rw [operator_eq_VT, hf, decide_eq_true_eq, sign_eq_zero, fmt.value_eq_iff]
    omega
  · rw [operator_lt_VT, hf, decide_eq_true_eq, sign_neg_iff, fmt.value_lt_iff]
    omega
  · rw [operator_gt_VT, hf, decide_eq_true_eq, sign_pos_iff, gt_iff_lt, gt_iff_lt,
      fmt.value_lt_iff]
    omega
  · rw [hi, sign_sub_value fmt, hu]
  · rw [operator_eq_VT, hi, decide_eq_true_eq, sign_eq_zero, ← hu, fmt.value_eq_iff]
    omega
  · rw [operator_lt_VT, hi, decide_eq_true_eq, sign_neg_iff, ← hu, fmt.value_lt_iff]
    omega
  · rw [operator_gt_VT, hi, decide_eq_true_eq, sign_pos_iff, ← hu, gt_iff_lt, gt_iff_lt,
      fmt.value_lt_iff]
    omega
  · rw [operator_eq_VT, compare_float_integer binary64 (by decide) 32 int32 _ 3 _ h3,
      decide_eq_true_eq, sign_eq_zero]
    exact sub_self _
  · rw [operator_lt_VT, compare_float_integer binary64 (by decide) 32 int32 _ 3 _ h3,
      decide_eq_true_eq, sign_neg_iff]
    decide

set_option exponentiation.threshold 4096 in
/-- C12 amended, in binary64 at the float nearest to `2.9`, the floating-point
operand `3.0` and the `int32_t` operand 3, whose conversion is exact. -/
theorem C12_float_sign_witness :
    (0 < binary64.prec ∧
      (FloatType.ofInt 3 : Flt binary64) = .fin (3 * pow2 binary64.scale) ∧
      (Flt.fin (6530219459687219 * pow2 1023) : Flt binary64).valid ∧
      (Flt.fin (3 * pow2 1074) : Flt binary64).valid) ∧
    (operator_lt_VT 32 (.float (.fin (6530219459687219 * pow2 1023)) : VariantData (Flt binary64))
        (.floating (.fin (3 * pow2 1074))) = true
      ↔ binary64.value (6530219459687219 * pow2 1023) < binary64.value (3 * pow2 1074)) ∧
    (operator_lt_VT 32 (.float (.fin (6530219459687219 * pow2 1023)) : VariantData (Flt binary64))
        (.integer int32 3) = true
      ↔ binary64.value (6530219459687219 * pow2 1023) < ((3 : Int) : ℚ)) :=
  ⟨⟨by decide, Flt.ofInt_exact binary64 (by decide) 3 (by decide),
      Flt.round_exact binary64 _ 6530219459687219 1023 (by decide) (by decide) (by decide),
      Flt.round_exact binary64 _ 3 1074 (by decide) (by decide) (by decide)⟩,
    (C12_float_sign binary64 (by decide) 32 int32 (6530219459687219 * pow2 1023)
      (3 * pow2 1074) 3 (Flt.ofInt_exact binary64 (by decide) 3 (by decide))).2.2.1,
    (C12_float_sign binary64 (by decide) 32 int32 (6530219459687219 * pow2 1023)
      (3 * pow2 1074) 3 (Flt.ofInt_exact binary64 (by decide) 3 (by decide))).2.2.2.2.2.2.1⟩

/-- C13: on a string variant the result is the answer of the string adapter's
`equals` for the operand, in both operand orders; with the adapter of
`const char*` and a string that is present, the two are equal exactly when
they are the same byte sequence, and not equal otherwise. -/
theorem C13_string_equal {F T : Type} (A : StringAdapter T) (x : T) (s t : CStr) :
    operator_eq_VS A (.string s : VariantData F) x = A.equals x s ∧
    operator_eq_SV A x (.string s : VariantData F) = A.equals x s ∧
    (operator_eq_VS constCharAdapter (.string s : VariantData F) (some t) = true ↔ t = s) ∧
    (operator_eq_SV constCharAdapter (some t) (.string s : VariantData F) = true ↔ t = s) ∧
    (operator_ne_VS constCharAdapter (.string s : VariantData F) (some t) = true ↔ t ≠ s) ∧
    (operator_ne_SV constCharAdapter (some t) (.string s : VariantData F) = true ↔ t ≠ s) := by
  refine ⟨rfl, rfl, ?_, ?_, ?_, ?_⟩ <;>
    simp [operator_eq_VS, operator_eq_SV, operator_ne_VS, operator_ne_SV, VariantData.accept,
      StrComparer.visitor, constCharAdapter]

/-- C14 fails at `int32_t` on a target with a 32-bit `int`, payload 2 and
operand `2147483647`: the true difference `-2 - 2147483647` is negative, but
computed in 32 bits it wraps to a positive value, so the result is `1`, the
variant is not less than the operand and is greater than it. -/
theorem C14_negativeInteger_overflow :
    (int32.isSigned = true ∧ 1 ≤ 2 ∧ ((2 : Nat) : Int) ≤ int32.maxValue ∧
      int32.inRange 2147483647) ∧
    sign (-((2 : Nat) : Int) - 2147483647) = -1 ∧
    compare 32 (.negativeInteger 2 : VariantData ℚ) (.integer int32 2147483647) = 1 ∧
    operator_lt_VT 32 (.negativeInteger 2 : VariantData ℚ) (.integer int32 2147483647) = false ∧
    operator_gt_VT 32 (.negativeInteger 2 : VariantData ℚ) (.integer int32 2147483647) = true ∧
    operator_lt_VT 32 (.positiveInteger 2 : VariantData ℚ) (.integer int32 2147483647) = true := by
  decide

/-- C15: a positive integer payload is compared as its conversion into the
operand type `t`, so the payloads `u` and `u + 2 ^ bits` give the same result
and the same answers of all six operators, in both operand orders; the
payload `u` is equal to an operand `n` of type `t` exactly when `u` and `n`
have the same residue modulo `2 ^ bits`; payload 298 is equal to the
`uint8_t` operand 42. -/
theorem C15_truncation (intBits : Nat) (t : IntType) (u : Nat) (n : Int)
    (hb : 0 < t.bits) (hn : t.inRange n) :
    (compare intBits (.positiveInteger u : VariantData F) (.integer t n)
      = if t.cast u < n then -1 else if t.cast u > n then 1 else 0) ∧
    (compare intBits (.positiveInteger (u + 2 ^ t.bits) : VariantData F) (.integer t n)
      = compare intBits (.positiveInteger u : VariantData F) (.integer t n)) ∧
    (operator_eq_VT intBits (.positiveInteger (u + 2 ^ t.bits) : VariantData F) (.integer t n)
      = operator_eq_VT intBits (.positiveInteger u : VariantData F) (.integer t n)) ∧
    (operator_ne_VT intBits (.positiveInteger (u + 2 ^ t.bits) : VariantData F) (.integer t n)
      = operator_ne_VT intBits (.positiveInteger u : VariantData F) (.integer t n)) ∧
    (operator_lt_VT intBits (.positiveInteger (u + 2 ^ t.bits) : VariantData F) (.integer t n)
      = operator_lt_VT intBits (.positiveInteger u : VariantData F) (.integer t n)) ∧
    (operator_le_VT intBits (.positiveInteger (u + 2 ^ t.bits) : VariantData F) (.integer t n)
      = operator_le_VT intBits (.positiveInteger u : VariantData F) (.integer t n)) ∧
    (operator_gt_VT intBits (.positiveInteger (u + 2 ^ t.bits) : VariantData F) (.integer t n)
      = operator_gt_VT intBits (.positiveInteger u : VariantData F) (.integer t n)) ∧
    (operator_ge_VT intBits (.positiveInteger (u + 2 ^ t.bits) : VariantData F) (.integer t n)
      = operator_ge_VT intBits (.positiveInteger u : VariantData F) (.integer t n)) ∧
    (operator_eq_TV intBits (.integer t n) (.positiveInteger (u + 2 ^ t.bits) : VariantData F)
      = operator_eq_TV intBits (.integer t n) (.positiveInteger u : VariantData F)) ∧
    (operator_ne_TV intBits (.integer t n) (.positiveInteger (u + 2 ^ t.bits) : VariantData F)
      = operator_ne_TV intBits (.integer t n) (.positiveInteger u : VariantData F)) ∧
    (operator_lt_TV intBits (.integer t n) (.positiveInteger (u + 2 ^ t.bits) : VariantData F)
      = operator_lt_TV intBits (.integer t n) (.positiveInteger u : VariantData F)) ∧
    (operator_le_TV intBits (.integer t n) (.positiveInteger (u + 2 ^ t.bits) : VariantData F)
      = operator_le_TV intBits (.integer t n) (.positiveInteger u : VariantData F)) ∧
    (operator_gt_TV intBits (.integer t n) (.positiveInteger (u + 2 ^ t.bits) : VariantData F)
      = operator_gt_TV intBits (.integer t n) (.positiveInteger u : VariantData F)) ∧
    (operator_ge_TV intBits (.integer t n) (.positiveInteger (u + 2 ^ t.bits) : VariantData F)
      = operator_ge_TV intBits (.integer t n) (.positiveInteger u : VariantData F)) ∧
    (operator_eq_VT intBits (.positiveInteger u : VariantData F) (.integer t n) = true
      ↔ (u : Int) ≡ n [ZMOD pow2 t.bits]) ∧
    (operator_eq_TV intBits (.integer t n) (.positiveInteger u : VariantData F) = true
      ↔ (u : Int) ≡ n [ZMOD pow2 t.bits]) ∧
    operator_eq_VT 32 (.positiveInteger 298 : VariantData F) (.integer uint8 42) = true := by
  have hc : compare intBits (.positiveInteger (u + 2 ^ t.bits) : VariantData F) (.integer t n)
      = compare intBits (.positiveInteger u : VariantData F) (.integer t n) := by
    rw [compare_positiveInteger, compare_positiveInteger, t.cast_add_pow2 u]
  have he : compare intBits (.positiveInteger u : VariantData F) (.integer t n) = 0
      ↔ (u : Int) ≡ n [ZMOD pow2 t.bits] := by
    rw [compare_positiveInteger, ← t.cast_eq_iff hb u n hn]
    split_ifs <;> first | omega | (simp; omega)
  refine ⟨rfl, hc, ?_, ?_, ?_, ?_, ?_, ?_, ?_, ?_, ?_, ?_, ?_, ?_, ?_, ?_, ?_⟩
  · simp only [operator_eq_VT, hc]
  · simp only [operator_ne_VT, hc]
  · simp only [operator_lt_VT, hc]
  · simp only [operator_le_VT, hc]
  · simp only [operator_gt_VT, hc]
  · simp only [operator_ge_VT, hc]
  · simp only [operator_eq_TV, hc]
  · simp only [operator_ne_TV, hc]
  · simp only [operator_lt_TV, hc]
  · simp only [operator_le_TV, hc]
  · simp only [operator_gt_TV, hc]
  · simp only [operator_ge_TV, hc]
  · rw [operator_eq_VT, decide_eq_true_eq, he]
  · rw [operator_eq_TV, decide_eq_true_eq, he]
  · rw [operator_eq_VT, decide_eq_true_eq, compare_positiveInteger]
    decide

/-- C15, at payload 298 and the `uint8_t` operand 42. -/
theorem C15_truncation_witness :
    (0 < uint8.bits ∧ uint8.inRange 42) ∧
    operator_eq_VT 32 (.positiveInteger (298 + 2 ^ uint8.bits) : VariantData ℚ) (.integer uint8 42)
      = operator_eq_VT 32 (.positiveInteger 298 : VariantData ℚ) (.integer uint8 42) ∧
    (operator_eq_VT 32 (.positiveInteger 298 : VariantData ℚ) (.integer uint8 42) = true
      ↔ ((298 : Nat) : Int) ≡ 42 [ZMOD pow2 uint8.bits]) :=
  ⟨⟨by decide, by decide⟩,
    (C15_truncation 32 uint8 298 42 (by decide) (by decide)).2.2.1,
    (C15_truncation 32 uint8 298 42 (by decide) (by decide)).2.2.2.2.2.2.2.2.2.2.2.2.2.2.1⟩

/-- C16: the comparer of a simple value has result `1` before any visit;
`compare` is the result after the single visit of that comparer; it is `-1`,
`0` or `1` for every variant and every simple value; and on two booleans it is
the difference of their 0/1 values. -/
theorem C16_tristate {T : Type} (value : T) (intBits : Nat) (v : VariantData F)
    (n : SimpleValue F) (t : IntType) (k : Int) (x : F) (b c : Bool) :
    (Comparer.init value).result = 1 ∧
    compare intBits v (.integer t k)
      = (v.accept (Comparer.intVisitor intBits t) (Comparer.init k)).result ∧
    compare intBits v (.floating x) = (v.accept Comparer.floatVisitor (Comparer.init x)).result ∧
    compare intBits v (.boolean c) = (v.accept Comparer.boolVisitor (Comparer.init c)).result ∧
    (compare intBits v n = -1 ∨ compare intBits v n = 0 ∨ compare intBits v n = 1) ∧
    compare intBits (.boolean b : VariantData F) (.boolean c)
      = (if b then 1 else 0) - (if c then 1 else 0) :=
  ⟨rfl, rfl, rfl, rfl, compare_tristate intBits v n, compare_boolean intBits b c⟩

/-- C17: for every variant and every simple value exactly one of less, equal
and greater holds, in each operand order; outside the home family of the
operand it is greater for the variant first, less for the operand first. -/
theorem C17_trichotomy (intBits : Nat) (v : VariantData F) (n : SimpleValue F) :
    ((operator_lt_VT intBits v n = true ∧ operator_eq_VT intBits v n = false ∧
        operator_gt_VT intBits v n = false) ∨
      (operator_lt_VT intBits v n = false ∧ operator_eq_VT intBits v n = true ∧
        operator_gt_VT intBits v n = false) ∨
      (operator_lt_VT intBits v n = false ∧ operator_eq_VT intBits v n = false ∧
        operator_gt_VT intBits v n = true)) ∧
    ((operator_lt_TV intBits n v = true ∧ operator_eq_TV intBits n v = false ∧
        operator_gt_TV intBits n v = false) ∨
      (operator_lt_TV intBits n v = false ∧ operator_eq_TV intBits n v = true ∧
        operator_gt_TV intBits n v = false) ∨
      (operator_lt_TV intBits n v = false ∧ operator_eq_TV intBits n v = false ∧
        operator_gt_TV intBits n v = true)) ∧
    (v.kind ∉ n.home →
      operator_gt_VT intBits v n = true ∧ operator_lt_TV intBits n v = true) := by
  refine ⟨?_, ?_, fun h => ?_⟩
  · simp only [operator_lt_VT, operator_eq_VT, operator_gt_VT, decide_eq_true_eq,
      decide_eq_false_iff_not]
    omega
  · simp only [operator_lt_TV, operator_eq_TV, operator_gt_TV, decide_eq_true_eq,
      decide_eq_false_iff_not]
    omega
  · simp [operator_gt_VT, operator_lt_TV, compare_of_not_home intBits v n h]

/-- C17, at the object variant and the boolean operand `false`. -/
theorem C17_trichotomy_witness :
    (VariantData.object : VariantData ℚ).kind ∉ (SimpleValue.boolean false : SimpleValue ℚ).home ∧
    operator_gt_VT 32 (.object : VariantData ℚ) (.boolean false) = true ∧
    operator_lt_TV 32 (.boolean false) (.object : VariantData ℚ) = true :=
  ⟨by decide, (C17_trichotomy 32 (.object : VariantData ℚ) (.boolean false)).2.2 (by decide)⟩

/-- C18: for every variant and every simple value, in both operand orders,
less-or-equal is less or equal and is the negation of greater, and
greater-or-equal is greater or equal and is the negation of less. -/
theorem C18_non_strict (intBits : Nat) (v : VariantData F) (n : SimpleValue F) :
    operator_le_VT intBits v n = (operator_lt_VT intBits v n || operator_eq_VT intBits v n) ∧
    operator_le_VT intBits v n = !operator_gt_VT intBits v n ∧
    operator_ge_VT intBits v n = (operator_gt_VT intBits v n || operator_eq_VT intBits v n) ∧
    operator_ge_VT intBits v n = !operator_lt_VT intBits v n ∧
    operator_le_TV intBits n v = (operator_lt_TV intBits n v || operator_eq_TV intBits n v) ∧
    operator_le_TV intBits n v = !operator_gt_TV intBits n v ∧
    operator_ge_TV intBits n v = (operator_gt_TV intBits n v || operator_eq_TV intBits n v) ∧
    operator_ge_TV intBits n v = !operator_lt_TV intBits n v := by
  simp only [operator_le_VT, operator_lt_VT, operator_eq_VT, operator_gt_VT, operator_ge_VT,
    operator_le_TV, operator_lt_TV, operator_eq_TV, operator_gt_TV, operator_ge_TV]
  rcases lt_trichotomy (compare intBits v n) 0 with h | h | h
  · simp [h, h.le, h.ne, not_lt.mpr h.le, not_le.mpr h]
  · simp [h]
  · simp [h, h.le, h.ne.symm, not_lt.mpr h.le, not_le.mpr h]

/-- C19: for an unsigned operand type that is not promoted (at least as wide
as `int`), a negative integer of any payload `m` and any operand `n`, the
result is `0` or `1`, the variant is not less than the operand and is greater
or equal, and the two are equal exactly when `n` and `-m` have the same
residue modulo `2 ^ bits`; payload 5 is equal to the `uint32_t` operand
`4294967291`. -/
theorem C19_unsigned_negative (intBits : Nat) (t : IntType) (m : Nat) (n : Int)
    (hs : t.isSigned = false) (hp : intBits ≤ t.bits) :
    (compare intBits (.negativeInteger m : VariantData F) (.integer t n) = 0 ∨
      compare intBits (.negativeInteger m : VariantData F) (.integer t n) = 1) ∧
    operator_lt_VT intBits (.negativeInteger m : VariantData F) (.integer t n) = false ∧
    operator_ge_VT intBits (.negativeInteger m : VariantData F) (.integer t n) = true ∧
    (operator_eq_VT intBits (.negativeInteger m : VariantData F) (.integer t n) = true
      ↔ n ≡ -(m : Int) [ZMOD pow2 t.bits]) ∧
    operator_eq_VT 32 (.negativeInteger 5 : VariantData F) (.integer uint32 4294967291) = true := by
  obtain ⟨h01, he⟩ := compare_negativeInteger_unsigned (F := F) intBits t m n hs hp
  refine ⟨h01, ?_, ?_, ?_, ?_⟩
  · rw [operator_lt_VT, decide_eq_false_iff_not]
    omega
  · rw [operator_ge_VT, decide_eq_true_eq]
    omega
  · rw [operator_eq_VT, decide_eq_true_eq, he]
  · rw [operator_eq_VT, decide_eq_true_eq, compare_negativeInteger]
    decide

/-- C19, at `uint32_t` on a target with a 32-bit `int`, payload 5 and operand 7. -/
theorem C19_unsigned_negative_witness :
    (uint32.isSigned = false ∧ 32 ≤ uint32.bits) ∧
    (compare 32 (.negativeInteger 5 : VariantData ℚ) (.integer uint32 7) = 0 ∨
      compare 32 (.negativeInteger 5 : VariantData ℚ) (.integer uint32 7) = 1) ∧
    operator_lt_VT 32 (.negativeInteger 5 : VariantData ℚ) (.integer uint32 7) = false ∧
    operator_ge_VT 32 (.negativeInteger 5 : VariantData ℚ) (.integer uint32 7) = true ∧
    (operator_eq_VT 32 (.negativeInteger 5 : VariantData ℚ) (.integer uint32 7) = true
      ↔ (7 : Int) ≡ -((5 : Nat) : Int) [ZMOD pow2 uint32.bits]) ∧
    operator_eq_VT 32 (.negativeInteger 5 : VariantData ℚ) (.integer uint32 4294967291) = true :=
  ⟨⟨rfl, by decide⟩, C19_unsigned_negative 32 uint32 5 7 rfl (by decide)⟩

/-- C20: the helper `sign` is the sign function on the integers: it is `-1`
exactly below zero, `0` exactly at zero and `1` exactly above zero; so the
sign of a difference is `0` exactly when the two numbers are equal, also when
the difference is computed in an integer type that holds it. -/
theorem C20_sign (x a b : Int) (t : IntType) (hb : 0 < t.bits) (h : t.inRange (a - b)) :
    (sign x = -1 ↔ x < 0) ∧ (sign x = 0 ↔ x = 0) ∧ (sign x = 1 ↔ x > 0) ∧
    sign x = Int.sign x ∧
    (sign (a - b) = 0 ↔ a = b) ∧
    (sign (t.cast (a - b)) = 0 ↔ a = b) := by
  have h3 : ∀ y : Int, (sign y = -1 ↔ y < 0) ∧ (sign y = 0 ↔ y = 0) ∧ (sign y = 1 ↔ y > 0) := by
    intro y
    unfold sign
    split_ifs <;> refine ⟨?_, ?_, ?_⟩ <;> first | omega | (simp; omega)
  refine ⟨(h3 x).1, (h3 x).2.1, (h3 x).2.2, ?_, ?_, ?_⟩
  · unfold sign
    rcases lt_trichotomy x 0 with hx | hx | hx
    · rw [if_pos hx, Int.sign_eq_neg_one_of_neg hx]
    · subst hx; rfl
    · rw [if_neg (by omega), if_pos hx, Int.sign_eq_one_of_pos hx]
  · rw [(h3 _).2.1]; omega
  · rw [t.cast_of_inRange hb _ h, (h3 _).2.1]; omega

/-- C20, at `int32_t` and the difference `7 - 7`. -/
theorem C20_sign_witness :
    (0 < int32.bits ∧ int32.inRange (7 - 7)) ∧
    (sign (-3) = -1 ↔ (-3 : Int) < 0) ∧ (sign (-3) = 0 ↔ (-3 : Int) = 0) ∧
    (sign (-3) = 1 ↔ (-3 : Int) > 0) ∧ sign (-3) = Int.sign (-3) ∧
    (sign (7 - 7) = 0 ↔ (7 : Int) = 7) ∧
    (sign (int32.cast (7 - 7)) = 0 ↔ (7 : Int) = 7) :=
  ⟨⟨by decide, by decide⟩, C20_sign (-3) 7 7 int32 (by decide) (by decide)⟩

end ArduinoJson
